import Mathlib

/-!
Shallow embedding of the talm repository's template-helper library
(`pkg/commands/template.go`, which also carries the embedded preset
templates of `pkg/generated`, including `talm/templates/_helpers.tpl`)
and of the init command's file-writing logic.

Machine integers are modelled as `Int`/`Nat`; Go strings as Lean `String`
(a list of characters); the filesystem as a partial map from paths to
contents.  Each definition is translated from the Go / Go-template source
named in its doc comment.  The file is laid out as: all definitions,
then all lemmas and theorems.
-/

namespace Talm

/-! #### Byte-size humanizer (`talm.human_size`, template.go lines 408-417)

The template is:
```
{{- $bytes := int64 . }}
{{- if lt $bytes 1048576 }}
  {{- printf "%.2f MB" (divf $bytes 1048576.0) }}
{{- else if lt $bytes 1073741824 }}
  {{- printf "%.2f GB" (divf $bytes 1073741824.0) }}
{{- else }}
  {{- printf "%.2f TB" (divf $bytes 1099511627776.0) }}
{{- end }}
```
All tags carry left-trim markers, so the define's output is exactly the
`printf` result.  `printf "%.2f"` rounds the quotient to two decimal
places, ties to even; the quotients relevant to the claims (a numerator
divided by a power of two) are exactly representable in float64, so exact
rational rounding coincides with the float behaviour. -/

/-- Round `num / den` (for `den > 0`) to the nearest natural number,
ties to even — the rounding applied by Go's `%.2f` formatting. -/
def roundHalfEven (num den : Nat) : Nat :=
  let q := num / den
  let r := num % den
  if 2 * r < den then q
  else if den < 2 * r then q + 1
  else if q % 2 = 0 then q else q + 1

/-- Model of `printf "%.2f"` applied to the exact quotient `bytes / den`:
the magnitude is rounded to a whole number of hundredths and printed with
exactly two digits after the decimal point, with a leading minus sign for
negative inputs. -/
def fmt2 (bytes : Int) (den : Nat) : String :=
  let centi := roundHalfEven (bytes.natAbs * 100) den
  let frac := centi % 100
  let s := toString (centi / 100) ++ "." ++ (if frac < 10 then "0" else "") ++ toString frac
  if bytes < 0 then "-" ++ s else s

/-- Embedding of the `talm.human_size` template define (template.go
lines 408-417): strict-less-than thresholds at 2^20 and 2^30, with
divisors 2^20, 2^30 and 2^40 for the MB, GB and TB branches. -/
def human_size (bytes : Int) : String :=
  if bytes < 1048576 then fmt2 bytes 1048576 ++ " MB"
  else if bytes < 1073741824 then fmt2 bytes 1073741824 ++ " GB"
  else fmt2 bytes 1099511627776 ++ " TB"

/-! #### System disk discovery (`talm.discovered.system_disk_name`,
template.go lines 372-383)

The template is:
```
{{- $disk := "" }}
{{- range .Disks }}
{{- if eq $disk "" }}
{{- $disk = .device_name }}
{{- end }}
{{- if .system_disk }}
{{- $disk = .device_name }}
{{- end }}
{{- end }}
{{- $disk }}
```
The accumulator is seeded with the first disk's name (via the `eq $disk ""`
guard) and then overwritten by EVERY disk whose `system_disk` flag is set,
so with several flagged disks the last one wins. -/

/-- One entry of the `.Disks` list fed to the template. -/
structure Disk where
  device_name : String
  system_disk : Bool
deriving DecidableEq, Repr

/-- The loop body of the `system_disk_name` template, one step per disk. -/
def system_disk_step (disk : String) (d : Disk) : String :=
  let disk1 := if disk = "" then d.device_name else disk
  if d.system_disk then d.device_name else disk1

/-- Embedding of `talm.discovered.system_disk_name`: fold the loop body
over the disk list starting from the empty string. -/
def system_disk_name (disks : List Disk) : String :=
  disks.foldl system_disk_step ""

/-- Restatement of the claim's words (refinement target, NOT a translation
of the code): the device name of the first disk flagged as the boot/system
disk, or of the first enumerated disk when no disk carries the flag. -/
def system_disk_name_claim (disks : List Disk) : String :=
  match disks.find? (·.system_disk) with
  | some d => d.device_name
  | none =>
    match disks.head? with
    | some d => d.device_name
    | none => ""

/-! #### JSON encoding of string lists (Go `encoding/json.Marshal`)

Used both by `generateModeline` (template.go lines 133-155) and by the
sprig `toJson` call in `talm.discovered.default_addresses_by_gateway`.
Go's encoder escapes `"` and `\`, writes `\n`, `\r`, `\t` for those
control characters and `\u00XX` (lowercase hex) for the other control
characters below 0x20, and — HTML escaping being on by default — writes
`<`, `>`, `&` for `<`, `>`, `&`. -/

/-- Lowercase hex digit for one nibble, as Go's encoder writes them. -/
def hexDigitChar : Nat → Char
  | 0 => '0'
  | 1 => '1'
  | 2 => '2'
  | 3 => '3'
  | 4 => '4'
  | 5 => '5'
  | 6 => '6'
  | 7 => '7'
  | 8 => '8'
  | 9 => '9'
  | 10 => 'a'
  | 11 => 'b'
  | 12 => 'c'
  | 13 => 'd'
  | 14 => 'e'
  | 15 => 'f'
  | _ => '0'

/-- Escape one character the way Go's JSON encoder does inside a string
literal. -/
def jsonEscapeChar (c : Char) : String :=
  if c = '"' then "\\\""
  else if c = '\\' then "\\\\"
  else if c = '\n' then "\\n"
  else if c = '\r' then "\\r"
  else if c = '\t' then "\\t"
  else if c = '<' then "\\u003c"
  else if c = '>' then "\\u003e"
  else if c = '&' then "\\u0026"
  else if c.toNat < 32 then
    "\\u00" ++ String.singleton (hexDigitChar (c.toNat / 16)) ++
      String.singleton (hexDigitChar (c.toNat % 16))
  else String.singleton c

/-- Concatenation of a list of strings (no separator). -/
def concatStrings : List String → String
  | [] => ""
  | s :: rest => s ++ concatStrings rest

/-- Comma-separated concatenation, as between JSON array elements. -/
def joinComma : List String → String
  | [] => ""
  | [s] => s
  | s :: t :: rest => s ++ "," ++ joinComma (t :: rest)

/-- JSON encoding of one string: quotes around the escaped characters. -/
def jsonEncodeString (s : String) : String :=
  "\"" ++ concatStrings (s.data.map jsonEscapeChar) ++ "\""

/-- JSON encoding of a (non-nil, in Go terms) string slice. -/
def jsonEncodeStringList (l : List String) : String :=
  "[" ++ joinComma (l.map jsonEncodeString) ++ "]"

/-! #### Network discovery helpers (template.go lines 425-443, 492-502,
508-514)

The node state visible to the templates: `(lookup "routes" "" "").items`
is a list of route resources (spec fields `dst`, `gateway`, `outLinkName`,
`family`), `(lookup "addresses" "" "").items` a list of address resources
(spec fields `address`, `linkName`, `family`, `scope`), and
`lookup "links" "" name` finds the link resource whose metadata id is
`name` (spec fields `hardwareAddr`, `driver`); a missing link makes the
template's `with` block fall through, per the provider contract that
absence surfaces as empty/falsy. -/

/-- One route resource's spec, as read by the templates. -/
structure Route where
  dst : String
  gateway : String
  outLinkName : String
  family : String
deriving DecidableEq, Repr

/-- One address resource's spec, as read by the templates. -/
structure Address where
  address : String
  linkName : String
  family : String
  scope : String
deriving DecidableEq, Repr

/-- One link resource (metadata id plus the spec fields the templates
read). -/
structure Link where
  id : String
  hardwareAddr : String
  driver : String
deriving DecidableEq, Repr

/-- The default-route test used by every route scan:
`and (eq .spec.dst "") (not (eq .spec.gateway ""))`. -/
def isDefaultRoute (r : Route) : Bool :=
  r.dst == "" && !(r.gateway == "")

/-- Embedding of `talm.discovered.default_gateway` (lines 508-514): the
loop emits the gateway of EVERY default route, with no separator and no
break, so the output is the concatenation of all matching gateways. -/
def default_gateway (routes : List Route) : String :=
  concatStrings ((routes.filter isDefaultRoute).map (·.gateway))

/-- The first scan of `talm.discovered.default_addresses_by_gateway`
(lines 426-433): `$linkName`/`$family` are overwritten by every default
route, so the last default route's pair survives (initially `("", "")`). -/
def lastDefaultLinkFamily (routes : List Route) : String × String :=
  routes.foldl (fun acc r => if isDefaultRoute r then (r.outLinkName, r.family) else acc)
    ("", "")

/-- The outer address filter of `default_addresses_by_gateway`:
`and (eq .spec.linkName $linkName) (eq .spec.family $family)
(not (eq .spec.scope "host"))`. -/
def addrLinkFamilyScope (lf : String × String) (a : Address) : Bool :=
  a.linkName == lf.1 && a.family == lf.2 && !(a.scope == "host")

/-- The inner floating-IP exclusion of `default_addresses_by_gateway`:
`hasPrefix (printf "%s/" $.Values.floatingIP) .spec.address` (string
prefix test, taken on the character lists). -/
def floatGuard (floatingIP : String) (a : Address) : Bool :=
  (floatingIP ++ "/").data.isPrefixOf a.address.data

/-- Embedding of `talm.discovered.default_addresses_by_gateway`
(lines 425-443): scan the routes for the last default route's
link/family, collect the matching non-host-scoped, non-floating
addresses in order, and emit them as a JSON array (`toJson`). -/
def default_addresses_by_gateway (routes : List Route) (addrs : List Address)
    (floatingIP : String) : String :=
  let lf := lastDefaultLinkFamily routes
  let addresses := addrs.foldl (fun acc a =>
    if addrLinkFamilyScope lf a then
      if !floatGuard floatingIP a then acc ++ [a.address] else acc
    else acc) []
  jsonEncodeStringList addresses

/-- Link lookup by metadata id: `lookup "links" "" name`. -/
def lookupLink (links : List Link) (name : String) : Option Link :=
  links.find? (·.id == name)

/-- Embedding of `talm.discovered.default_link_selector_by_gateway`
(lines 492-502): scan the routes; at the first default route whose link
lookup succeeds, emit the selector text and `break`; a failed lookup
skips the `with` block and the scan continues. -/
def default_link_selector_by_gateway : List Route → List Link → String
  | [], _ => ""
  | r :: rs, links =>
    if isDefaultRoute r then
      match lookupLink links r.outLinkName with
      | some l => "\nhardwareAddr: " ++ l.hardwareAddr ++ "\ndriver: " ++ l.driver
      | none => default_link_selector_by_gateway rs links
    else default_link_selector_by_gateway rs links

/-! #### Offline rendering (templateCmd.RunE, template.go lines 40-49)

The engine package (`engine.Render` and the lookup providers it
constructs) is not part of this repository's visible sources; only its
call site is.  The provider and render model below is therefore modelled
from the spec (§4.2, §8): the Null variant answers NotFound for every
call and never errors, and a guarded lookup renders to empty output on
NotFound. -/

/-- A fatal live-lookup connection failure (spec §7). -/
structure ConnectivityError where
  message : String
deriving DecidableEq, Repr

/-- Modelled from the spec: a Lookup Provider (spec §4.2) answers a
(kind, namespace, id) query with a payload or "not found" (`none`), or
fails with a `ConnectivityError` — the live variant only; the engine
package implementing it is missing from the visible sources. -/
def LookupFn : Type := String → String → String → Except ConnectivityError (Option String)

/-- Modelled from the spec: the Null (offline) provider returns NotFound
for every call and never errors. -/
def nullLookup : LookupFn := fun _ _ _ => .ok none

/-- Modelled from the spec: a template using only guarded lookups is a
sequence of literal text pieces and `with (lookup ...)` blocks whose body
renders only on a hit. -/
inductive TemplatePart where
  | lit (s : String)
  | guardedLookup (kind ns id : String) (body : String → String)

/-- Modelled from the spec: render one part — a guarded lookup renders
its body on a hit, empty output on NotFound, and propagates a
`ConnectivityError`. -/
def renderPart (lk : LookupFn) : TemplatePart → Except ConnectivityError String
  | .lit s => .ok s
  | .guardedLookup k n i body =>
    match lk k n i with
    | .error e => .error e
    | .ok (some payload) => .ok (body payload)
    | .ok none => .ok ""

/-- Modelled from the spec: render the parts in order, concatenating, the
first error aborting the render. -/
def renderParts (lk : LookupFn) : List TemplatePart → Except ConnectivityError String
  | [] => .ok ""
  | p :: rest =>
    match renderPart lk p, renderParts lk rest with
    | .ok s, .ok t => .ok (s ++ t)
    | .error e, _ => .error e
    | .ok _, .error e => .error e

/-- How `templateCmd.RunE` obtains a client: offline renders immediately
with a nil client (no connection attempted), insecure goes through the
maintenance service, otherwise an authenticated client is used. -/
inductive ClientMode where
  | offlineNil
  | maintenance
  | authenticated
deriving DecidableEq, Repr

/-- Embedding of the dispatch in `templateCmd.RunE` (template.go lines
40-49). -/
def runEDispatch (offline insecure : Bool) : ClientMode :=
  if offline then .offlineNil
  else if insecure then .maintenance
  else .authenticated

/-! #### Modeline emission (`generateModeline`, template.go lines 133-155,
and the output assembly in `template`, lines 77-83) -/

/-- Embedding of `generateModeline`: one `# talm:` comment with the three
string lists JSON-encoded (for string slices Go's `json.Marshal` cannot
fail, so the Go function's error result is always nil and the model is
total). -/
def generateModeline (nodes endpoints templates : List String) : String :=
  "# talm: nodes=" ++ jsonEncodeStringList nodes ++ ", endpoints=" ++
    jsonEncodeStringList endpoints ++ ", templates=" ++ jsonEncodeStringList templates

/-- Embedding of the output assembly `fmt.Printf("%s\n%s", modeline,
string(result))` in `template` (lines 77-83). -/
def finalOutput (modeline rendered : String) : String :=
  modeline ++ "\n" ++ rendered

/-! #### Init command file writing (src/unnamed/part_000)

The filesystem is a partial map from paths to contents; directories are
implicit (the `os.MkdirAll` call can only fail on I/O conditions outside
the model). -/

/-- A filesystem: path to file content. -/
def FS : Type := String → Option String

/-- The error text of `validateFileExists` (part_000 line 164),
`%q` modelled as plain double quotes. -/
def alreadyExistsError (file : String) : String :=
  "file \"" ++ file ++ "\" already exists, use --force to overwrite"

/-- Embedding of `validateFileExists` (part_000 lines 161-169): without
`--force` an existing destination is an error; with it the check is
skipped. -/
def validateFileExists (force : Bool) (fs : FS) (file : String) : Except String Unit :=
  if !force then
    if (fs file).isSome then .error (alreadyExistsError file)
    else .ok ()
  else .ok ()

/-- Embedding of `writeToDestination` (part_000 lines 171-188): validate
first — on failure nothing is written — then write the bytes; the result
pairs the returned error value with the resulting filesystem. -/
def writeToDestination (force : Bool) (fs : FS) (data : String) (destination : String) :
    Except String Unit × FS :=
  match validateFileExists force fs destination with
  | .error e => (.error e, fs)
  | .ok _ => (.ok (), fun p => if p = destination then some data else fs p)

/-- Split a character list at the first '/', keeping later separators in
the remainder — the character-level behaviour of
`strings.SplitN(path, "/", 2)`. -/
def breakSlash : List Char → List Char × Option (List Char)
  | [] => ([], none)
  | c :: rest =>
    if c = '/' then ([], some rest)
    else
      match breakSlash rest with
      | (front, tail) => (c :: front, tail)

/-- The parts of Go's `strings.SplitN(path, "/", 2)`: at most two pieces,
the second being the remainder with its separators intact. -/
def splitN2 (path : String) : List String :=
  match breakSlash path.data with
  | (_, none) => [path]
  | (front, some rest) => [⟨front⟩, ⟨rest⟩]

/-- `parts[0]` of the split — the chart directory name. -/
def chartNameOf (path : String) : String := (splitN2 path).headD ""

/-- `parts[len(parts)-1]` of the split — what the init loop compares with
"Chart.yaml". -/
def lastPartOf (path : String) : String := (splitN2 path).getLastD ""

/-- The init loop's Chart.yaml test (part_000 line 109). -/
def isChartFile (path : String) : Bool := lastPartOf path == "Chart.yaml"

/-- Substitute `b` for the first `%s` verb in a character list. -/
def substSecond (b : String) : List Char → List Char
  | [] => []
  | '%' :: 's' :: rest => b.data ++ rest
  | c :: rest => c :: substSecond b rest

/-- Substitute `a` and `b` for the first two `%s` verbs. -/
def substVerbs (a b : String) : List Char → List Char
  | [] => []
  | '%' :: 's' :: rest => a.data ++ substSecond b rest
  | c :: rest => c :: substVerbs a b rest

/-- Go's `fmt.Sprintf` for a format holding exactly two `%s` verbs, as
used on the preset Chart.yaml contents (part_000 line 110). -/
def sprintf2 (format a b : String) : String :=
  ⟨substVerbs a b format.data⟩

/-- `filepath.Join(Config.RootDir, filepath.Join(parts[1:]...))`
(part_000 line 108) in the path-map model. -/
def destPath (root path : String) : String :=
  match splitN2 path with
  | [_, rest] => root ++ "/" ++ rest
  | _ => root

/-- Embedding of the preset-writing loop of `initCmd.RunE` (part_000
lines 104-118), iterating the preset files in one fixed order (Go ranges
over a map in unspecified order).  For a Chart.yaml entry the
`writeToDestination` return value is discarded (line 110: the call's
result is not assigned), so the stale `err` — always nil at that point,
every earlier failure having returned — is checked instead and the loop
continues; for every other entry an error aborts. -/
def initWritePresets (force : Bool) (presetName root clusterName version : String) :
    List (String × String) → FS → Except String FS
  | [], fs => .ok fs
  | (path, content) :: rest, fs =>
    if chartNameOf path = presetName then
      if isChartFile path then
        initWritePresets force presetName root clusterName version rest
          (writeToDestination force fs (sprintf2 content clusterName version)
            (destPath root path)).2
      else
        match writeToDestination force fs content (destPath root path) with
        | (.error e, _) => .error e
        | (.ok _, fs1) => initWritePresets force presetName root clusterName version rest fs1
    else initWritePresets force presetName root clusterName version rest fs

/-! #### Template option layering (templateCmd.PreRunE, template.go lines
104-127) -/

/-- The template options, as carried both by the project configuration
(`Config.TemplateOptions`) and by the command-line flags
(`templateCmdFlags`). -/
structure TemplateOptions where
  valueFiles : List String
  values : List String
  stringValues : List String
  fileValues : List String
  jsonValues : List String
  literalValues : List String
  talosVersion : String
  withSecrets : String
  kubernetesVersion : String
  full : Bool
  offline : Bool
deriving DecidableEq, Repr

/-- Which scalar flags were explicitly set on the command line
(`cmd.Flags().Changed(...)`). -/
structure ChangedFlags where
  talosVersion : Bool
  withSecrets : Bool
  kubernetesVersion : Bool
  full : Bool
  offline : Bool
deriving DecidableEq, Repr

/-- Embedding of `templateCmd.PreRunE` (template.go lines 104-127): every
list option becomes the project-configuration entries followed by the
command-line entries; each scalar option keeps the command-line value
when its flag was explicitly set and takes the project-configuration
value otherwise. -/
def preRunE (cfg : TemplateOptions) (flags : TemplateOptions) (changed : ChangedFlags) :
    TemplateOptions :=
  { valueFiles := cfg.valueFiles ++ flags.valueFiles
    values := cfg.values ++ flags.values
    stringValues := cfg.stringValues ++ flags.stringValues
    fileValues := cfg.fileValues ++ flags.fileValues
    jsonValues := cfg.jsonValues ++ flags.jsonValues
    literalValues := cfg.literalValues ++ flags.literalValues
    talosVersion := if changed.talosVersion then flags.talosVersion else cfg.talosVersion
    withSecrets := if changed.withSecrets then flags.withSecrets else cfg.withSecrets
    kubernetesVersion := if changed.kubernetesVersion then flags.kubernetesVersion
      else cfg.kubernetesVersion
    full := if changed.full then flags.full else cfg.full
    offline := if changed.offline then flags.offline else cfg.offline }

/-- Modelled from the spec (§3): set-entry lists are merged with later
entries overriding earlier ones at the same key path (the merge itself
lives in the external engine package); for scalar assignments the
effective value at a key is therefore the last entry naming it. -/
def resolveKey (entries : List (String × String)) (k : String) : Option String :=
  entries.foldl (fun acc e => if e.1 == k then some e.2 else acc) none

end Talm

/-! ## Lemmas and theorems -/

/-! #### Generic helper lemmas about scan-style template loops -/

/-- A `find?` over an appended list returns the first list's hit first. -/
theorem find?_append_eq {α : Type} (p : α → Bool) :
    ∀ (l₁ l₂ : List α), (l₁ ++ l₂).find? p =
      match l₁.find? p with
      | some x => some x
      | none => l₂.find? p := by
  intro l₁ l₂
  induction l₁ with
  | nil => simp
  | cons a l₁ ih =>
    by_cases hp : p a
    · simp [List.find?_cons, hp]
    · simp [List.find?_cons, hp, ih]

/-- A left fold updating an accumulator exactly at elements satisfying `p`
computes the image of the last such element (searched as the first hit of
the reversed list), or keeps the initial value when none matches.  This is
the shape of the template loops that assign a variable inside
`range ... if ...`. -/
theorem foldl_update_eq_find_rev {α β : Type} (p : α → Bool) (f : α → β) :
    ∀ (l : List α) (init : β),
      l.foldl (fun acc x => if p x then f x else acc) init =
        match l.reverse.find? p with
        | some x => f x
        | none => init := by
  intro l
  induction l with
  | nil => intro init; rfl
  | cons a l ih =>
    intro init
    simp only [List.foldl_cons, List.reverse_cons]
    rw [ih, find?_append_eq]
    by_cases hp : p a
    · cases hf : l.reverse.find? p <;> simp [List.find?, hp, hf]
    · rw [Bool.not_eq_true] at hp
      cases hf : l.reverse.find? p <;> simp [List.find?, hp, hf]

/-- A `find?` is the head of the `filter`. -/
theorem find?_eq_head_filter {α : Type} (p : α → Bool) :
    ∀ l : List α, l.find? p = (l.filter p).head? := by
  intro l
  induction l with
  | nil => rfl
  | cons a l ih =>
    by_cases hp : p a
    · rw [List.find?_cons_of_pos _ hp, List.filter_cons_of_pos hp]
      rfl
    · rw [List.find?_cons_of_neg _ hp, List.filter_cons_of_neg hp, ih]

/-- When the filtered list is the singleton `[r]`, the reversed scan finds
exactly `r`. -/
theorem find?_rev_of_filter_singleton {α : Type} (p : α → Bool) (l : List α) (r : α)
    (h : l.filter p = [r]) : l.reverse.find? p = some r := by
  rw [find?_eq_head_filter, List.filter_reverse, h]
  rfl

/-! #### C1 -/

/-- C1 counterexample: the claim states that the input exactly 1073741824
(2^30) is formatted as GB (boundary inclusive), but the code's GB guard is
the strict `lt $bytes 1073741824`, so 2^30 falls through to the TB branch
and is rendered "0.00 TB" — no "G" appears in the output at all. -/
theorem human_size_pow30_is_TB_not_GB :
    Talm.human_size 1073741824 = "0.00 TB" ∧
    (Talm.human_size 1073741824).data.contains 'G' = false := by
  constructor
  · rfl
  · rfl

/-- C1 (amended): every input below 2^20 is formatted by the MB branch
(two-decimal `fmt2` with divisor 2^20), 1048575 yields "1.00 MB", inputs
at least 2^20 and strictly below 2^30 by the GB branch, and the TB branch
covers everything at or above 2^30 — in particular the input exactly
1073741824 (boundary exclusive for GB) and every input at or above 2^40. -/
theorem human_size_thresholds :
    (∀ b : Int, b < 1048576 → Talm.human_size b = Talm.fmt2 b 1048576 ++ " MB") ∧
    Talm.human_size 1048575 = "1.00 MB" ∧
    (∀ b : Int, 1048576 ≤ b → b < 1073741824 →
      Talm.human_size b = Talm.fmt2 b 1073741824 ++ " GB") ∧
    Talm.human_size 1073741824 = Talm.fmt2 1073741824 1099511627776 ++ " TB" ∧
    (∀ b : Int, 1099511627776 ≤ b → Talm.human_size b = Talm.fmt2 b 1099511627776 ++ " TB") := by
  refine ⟨fun b hb => ?_, ?_, fun b hb1 hb2 => ?_, ?_, fun b hb => ?_⟩
  · rw [Talm.human_size, if_pos hb]
  · rfl
  · rw [Talm.human_size, if_neg (by omega), if_pos hb2]
  · rfl
  · rw [Talm.human_size, if_neg (by omega), if_neg (by omega)]

/-- C1 amended-claim witness at concrete inputs for each guarded clause. -/
theorem human_size_thresholds_witness :
    Talm.human_size 42 = Talm.fmt2 42 1048576 ++ " MB" ∧
    Talm.human_size 1048576 = Talm.fmt2 1048576 1073741824 ++ " GB" ∧
    Talm.human_size 1099511627776 = Talm.fmt2 1099511627776 1099511627776 ++ " TB" :=
  ⟨human_size_thresholds.1 42 (by decide),
   human_size_thresholds.2.2.1 1048576 (by decide) (by decide),
   human_size_thresholds.2.2.2.2 1099511627776 (by decide)⟩

/-! #### C2 -/

/-- Key lemma: once the accumulator is non-empty, the system-disk fold
returns the last flagged disk's name (first hit of the reversed list), or
the accumulator if no disk is flagged — provided device names are
non-empty. -/
theorem system_disk_fold_eq (disks : List Talm.Disk) :
    ∀ acc : String, acc ≠ "" → (∀ d ∈ disks, d.device_name ≠ "") →
      disks.foldl Talm.system_disk_step acc =
        match disks.reverse.find? (·.system_disk) with
        | some d => d.device_name
        | none => acc := by
  induction disks with
  | nil => intro acc _ _; rfl
  | cons d ds ih =>
    intro acc hacc hnames
    have hd : d.device_name ≠ "" := hnames d (List.mem_cons_self d ds)
    have hds : ∀ x ∈ ds, x.device_name ≠ "" := fun x hx =>
      hnames x (List.mem_cons_of_mem d hx)
    have hstep : Talm.system_disk_step acc d =
        if d.system_disk then d.device_name else acc := by
      rw [Talm.system_disk_step]
      simp [if_neg hacc]
    simp only [List.foldl_cons, List.reverse_cons]
    rw [hstep]
    by_cases hsys : d.system_disk
    · rw [if_pos hsys, ih d.device_name hd hds, find?_append_eq]
      cases hf : ds.reverse.find? (·.system_disk) <;> simp [List.find?, hsys, hf]
    · rw [if_neg hsys, ih acc hacc hds, find?_append_eq]
      rw [Bool.not_eq_true] at hsys
      cases hf : ds.reverse.find? (·.system_disk) <;> simp [List.find?, hsys, hf]

/-- C2 counterexample: with two flagged disks the helper returns the LAST
flagged disk's name ("/dev/sdc"), while the claim ("first disk flagged")
demands "/dev/sdb". -/
theorem system_disk_name_last_flag_wins :
    Talm.system_disk_name
        [⟨"/dev/sda", false⟩, ⟨"/dev/sdb", true⟩, ⟨"/dev/sdc", true⟩] = "/dev/sdc" ∧
    Talm.system_disk_name_claim
        [⟨"/dev/sda", false⟩, ⟨"/dev/sdb", true⟩, ⟨"/dev/sdc", true⟩] = "/dev/sdb" ∧
    ("/dev/sdc" : String) ≠ "/dev/sdb" := by
  refine ⟨rfl, rfl, by decide⟩

/-- C2 (amended): for every non-empty disk list whose device names are
non-empty, the helper returns the device name of the LAST disk flagged as
the boot/system disk, or the device name of the first enumerated disk if
no disk carries the flag. -/
theorem system_disk_name_spec (d : Talm.Disk) (ds : List Talm.Disk)
    (hnames : ∀ x ∈ d :: ds, x.device_name ≠ "") :
    Talm.system_disk_name (d :: ds) =
      match (d :: ds).reverse.find? (·.system_disk) with
      | some x => x.device_name
      | none => d.device_name := by
  have hd : d.device_name ≠ "" := hnames d (List.mem_cons_self d ds)
  have hds : ∀ x ∈ ds, x.device_name ≠ "" := fun x hx =>
    hnames x (List.mem_cons_of_mem d hx)
  have hhead : Talm.system_disk_step "" d = d.device_name := by
    rw [Talm.system_disk_step]
    by_cases hsys : d.system_disk <;> simp [hsys]
  rw [Talm.system_disk_name, List.foldl_cons, hhead,
    system_disk_fold_eq ds d.device_name hd hds, List.reverse_cons, find?_append_eq]
  by_cases hsys : d.system_disk
  · cases hf : ds.reverse.find? (·.system_disk) <;> simp [List.find?, hsys, hf]
  · rw [Bool.not_eq_true] at hsys
    cases hf : ds.reverse.find? (·.system_disk) <;> simp [List.find?, hsys, hf]

/-- C2 amended-claim witness: a concrete flagged list and a concrete
unflagged list. -/
theorem system_disk_name_spec_witness :
    Talm.system_disk_name [⟨"/dev/sda", false⟩, ⟨"/dev/sdb", true⟩] =
      (match ([⟨"/dev/sda", false⟩, ⟨"/dev/sdb", true⟩] : List Talm.Disk).reverse.find?
          (·.system_disk) with
        | some x => x.device_name
        | none => "/dev/sda") :=
  system_disk_name_spec ⟨"/dev/sda", false⟩ [⟨"/dev/sdb", true⟩] (by decide)

/-! #### C3 -/

/-- C3: when the route list contains exactly one default route (empty
destination, non-empty gateway) and the matching link carries exactly one
address, `default_gateway` returns exactly that route's gateway. -/
theorem default_gateway_unique_route (routes : List Talm.Route) (r : Talm.Route)
    (hr : routes.filter Talm.isDefaultRoute = [r])
    (addrs : List Talm.Address) (a : Talm.Address)
    (ha : addrs.filter (fun x => x.linkName == r.outLinkName) = [a]) :
    Talm.default_gateway routes = r.gateway := by
  rw [Talm.default_gateway, hr]
  simp [Talm.concatStrings, String.append_empty]

/-- C3 witness: a two-route node (one default, one static) with one
address on the default route's link. -/
theorem default_gateway_unique_route_witness :
    Talm.default_gateway
        [⟨"10.0.0.0/8", "", "eth1", "inet4"⟩, ⟨"", "192.168.100.1", "eth0", "inet4"⟩] =
      "192.168.100.1" :=
  default_gateway_unique_route
    [⟨"10.0.0.0/8", "", "eth1", "inet4"⟩, ⟨"", "192.168.100.1", "eth0", "inet4"⟩]
    ⟨"", "192.168.100.1", "eth0", "inet4"⟩ (by decide)
    [⟨"192.168.100.2/24", "eth0", "inet4", "global"⟩]
    ⟨"192.168.100.2/24", "eth0", "inet4", "global"⟩ (by decide)

/-! #### C4 -/

/-- Helper: the address-collecting fold of `default_addresses_by_gateway`
appends exactly the addresses passing both filters, in order. -/
theorem addr_fold_eq (lf : String × String) (fip : String) :
    ∀ (l : List Talm.Address) (acc : List String),
      l.foldl (fun acc a =>
          if Talm.addrLinkFamilyScope lf a then
            if !Talm.floatGuard fip a then acc ++ [a.address] else acc
          else acc) acc =
        acc ++ ((l.filter (Talm.addrLinkFamilyScope lf)).filter
          (fun a => !Talm.floatGuard fip a)).map (·.address) := by
  intro l
  induction l with
  | nil => intro acc; simp
  | cons a l ih =>
    intro acc
    simp only [List.foldl_cons]
    by_cases hp : Talm.addrLinkFamilyScope lf a
    · by_cases hq : Talm.floatGuard fip a
      · rw [if_pos hp, if_neg (by simp [hq]), ih, List.filter_cons_of_pos hp,
          List.filter_cons_of_neg (by simp [hq])]
      · rw [if_pos hp, if_pos (by simp [hq]), ih, List.filter_cons_of_pos hp,
          List.filter_cons_of_pos (by simp [hq])]
        simp
    · rw [if_neg hp, ih, List.filter_cons_of_neg hp]

/-- C4: with exactly one default route `r` and exactly one address `a`
passing the link/family/non-host filter for `r`, the helper returns the
JSON array holding exactly `a.address` — unless `a` is the configured
floating IP (its CIDR string starts with `floatingIP ++ "/"`), in which
case it is excluded and the array is empty. -/
theorem default_addresses_unique (routes : List Talm.Route) (r : Talm.Route)
    (hr : routes.filter Talm.isDefaultRoute = [r])
    (addrs : List Talm.Address) (a : Talm.Address) (fip : String)
    (ha : addrs.filter (Talm.addrLinkFamilyScope (r.outLinkName, r.family)) = [a]) :
    Talm.default_addresses_by_gateway routes addrs fip =
      if Talm.floatGuard fip a then Talm.jsonEncodeStringList []
      else Talm.jsonEncodeStringList [a.address] := by
  have hlf : Talm.lastDefaultLinkFamily routes = (r.outLinkName, r.family) := by
    rw [Talm.lastDefaultLinkFamily,
      foldl_update_eq_find_rev Talm.isDefaultRoute
        (fun r => (r.outLinkName, r.family)) routes ("", ""),
      find?_rev_of_filter_singleton Talm.isDefaultRoute routes r hr]
  rw [Talm.default_addresses_by_gateway]
  simp only [hlf]
  rw [addr_fold_eq (r.outLinkName, r.family) fip addrs [], ha]
  by_cases hfg : Talm.floatGuard fip a
  · rw [if_pos hfg, List.filter_cons_of_neg (by simp [hfg])]
    rfl
  · rw [if_neg hfg, List.filter_cons_of_pos (by simp [hfg])]
    rfl

/-- C4 witness: one default route, one matching global-scope address not
equal to the floating IP: the helper returns that address as a
one-element JSON array. -/
theorem default_addresses_unique_witness :
    Talm.default_addresses_by_gateway
        [⟨"", "192.168.100.1", "eth0", "inet4"⟩]
        [⟨"192.168.100.2/24", "eth0", "inet4", "global"⟩]
        "192.168.100.10" =
      (if Talm.floatGuard "192.168.100.10" ⟨"192.168.100.2/24", "eth0", "inet4", "global"⟩
        then Talm.jsonEncodeStringList []
        else Talm.jsonEncodeStringList ["192.168.100.2/24"]) :=
  default_addresses_unique
    [⟨"", "192.168.100.1", "eth0", "inet4"⟩] ⟨"", "192.168.100.1", "eth0", "inet4"⟩
    (by decide)
    [⟨"192.168.100.2/24", "eth0", "inet4", "global"⟩]
    ⟨"192.168.100.2/24", "eth0", "inet4", "global"⟩ "192.168.100.10" (by decide)

/-! #### C5 -/

/-- C5 counterexample: with two default routes, `default_gateway` emits
the concatenation of BOTH gateways, not the last one alone — "last
matching route wins" fails for this helper. -/
theorem default_gateway_concat_two_defaults :
    Talm.default_gateway
        [⟨"", "10.0.0.1", "eth0", "inet4"⟩, ⟨"", "10.0.0.2", "eth1", "inet4"⟩] =
      "10.0.0.110.0.0.2" ∧
    ("10.0.0.110.0.0.2" : String) ≠ "10.0.0.2" := by
  refine ⟨rfl, by decide⟩

/-- C5 (amended): with multiple default routes the three scans disagree —
`default_addresses_by_gateway` is determined by the LAST default route
(its link/family pair overwrites earlier ones); `default_gateway` emits
the concatenation of EVERY default route's gateway; and
`default_link_selector_by_gateway` stops (`break`) at the FIRST default
route whose link lookup succeeds. -/
theorem route_scan_tiebreak :
    (∀ (routes : List Talm.Route) (addrs : List Talm.Address) (fip : String)
        (r : Talm.Route),
        routes.reverse.find? Talm.isDefaultRoute = some r →
        Talm.default_addresses_by_gateway routes addrs fip =
          Talm.default_addresses_by_gateway [r] addrs fip) ∧
    (∀ r1 r2 : Talm.Route,
        Talm.isDefaultRoute r1 = true → Talm.isDefaultRoute r2 = true →
        Talm.default_gateway [r1, r2] = r1.gateway ++ r2.gateway) ∧
    (∀ (links : List Talm.Link) (r : Talm.Route) (rs : List Talm.Route) (l : Talm.Link),
        Talm.isDefaultRoute r = true → Talm.lookupLink links r.outLinkName = some l →
        Talm.default_link_selector_by_gateway (r :: rs) links =
          "\nhardwareAddr: " ++ l.hardwareAddr ++ "\ndriver: " ++ l.driver) := by
  refine ⟨fun routes addrs fip r hfind => ?_, fun r1 r2 h1 h2 => ?_,
    fun links r rs l hdef hlook => ?_⟩
  · have hdef : Talm.isDefaultRoute r = true := List.find?_some hfind
    have h1 : Talm.lastDefaultLinkFamily routes = (r.outLinkName, r.family) := by
      rw [Talm.lastDefaultLinkFamily,
        foldl_update_eq_find_rev Talm.isDefaultRoute
          (fun r => (r.outLinkName, r.family)) routes ("", ""), hfind]
    have h2 : Talm.lastDefaultLinkFamily [r] = (r.outLinkName, r.family) := by
      rw [Talm.lastDefaultLinkFamily, List.foldl_cons, if_pos hdef]
      rfl
    rw [Talm.default_addresses_by_gateway, Talm.default_addresses_by_gateway]
    simp only [h1, h2]
  · rw [Talm.default_gateway, List.filter_cons_of_pos h1, List.filter_cons_of_pos h2,
      List.filter_nil]
    simp [Talm.concatStrings, String.append_empty]
  · rw [Talm.default_link_selector_by_gateway, if_pos hdef, hlook]

/-- C5 amended-claim witness: concrete dual-default-route inputs for each
of the three scans. -/
theorem route_scan_tiebreak_witness :
    Talm.default_addresses_by_gateway
        [⟨"", "10.0.0.1", "eth0", "inet4"⟩, ⟨"", "10.0.0.2", "eth1", "inet4"⟩]
        [⟨"10.0.0.3/24", "eth1", "inet4", "global"⟩] "" =
      Talm.default_addresses_by_gateway
        [⟨"", "10.0.0.2", "eth1", "inet4"⟩]
        [⟨"10.0.0.3/24", "eth1", "inet4", "global"⟩] "" ∧
    Talm.default_gateway
        [⟨"", "10.0.0.1", "eth0", "inet4"⟩, ⟨"", "10.0.0.2", "eth1", "inet4"⟩] =
      "10.0.0.1" ++ "10.0.0.2" ∧
    Talm.default_link_selector_by_gateway
        [⟨"", "10.0.0.1", "eth0", "inet4"⟩, ⟨"", "10.0.0.2", "eth1", "inet4"⟩]
        [⟨"eth0", "aa:bb:cc:dd:ee:ff", "e1000"⟩] =
      "\nhardwareAddr: " ++ "aa:bb:cc:dd:ee:ff" ++ "\ndriver: " ++ "e1000" :=
  ⟨route_scan_tiebreak.1
      [⟨"", "10.0.0.1", "eth0", "inet4"⟩, ⟨"", "10.0.0.2", "eth1", "inet4"⟩]
      [⟨"10.0.0.3/24", "eth1", "inet4", "global"⟩] ""
      ⟨"", "10.0.0.2", "eth1", "inet4"⟩ (by decide),
   route_scan_tiebreak.2.1
      ⟨"", "10.0.0.1", "eth0", "inet4"⟩ ⟨"", "10.0.0.2", "eth1", "inet4"⟩
      (by decide) (by decide),
   route_scan_tiebreak.2.2
      [⟨"eth0", "aa:bb:cc:dd:ee:ff", "e1000"⟩]
      ⟨"", "10.0.0.1", "eth0", "inet4"⟩ [⟨"", "10.0.0.2", "eth1", "inet4"⟩]
      ⟨"eth0", "aa:bb:cc:dd:ee:ff", "e1000"⟩ (by decide) (by decide)⟩

/-! #### C6 -/

/-- C6: in offline mode `RunE` renders immediately with a nil client — no
connection is attempted — and, against the spec-modelled Null provider,
every guarded lookup-backed helper yields empty output and any template
built from literals and guarded lookups renders successfully; no
`ConnectivityError` is ever produced. -/
theorem offline_render_total :
    (∀ insecure : Bool, Talm.runEDispatch true insecure = Talm.ClientMode.offlineNil) ∧
    (∀ (k n i : String) (body : String → String),
      Talm.renderPart Talm.nullLookup (Talm.TemplatePart.guardedLookup k n i body) =
        Except.ok "") ∧
    (∀ parts : List Talm.TemplatePart,
      ∃ s : String, Talm.renderParts Talm.nullLookup parts = Except.ok s) := by
  refine ⟨fun insecure => rfl, fun k n i body => rfl, fun parts => ?_⟩
  induction parts with
  | nil => exact ⟨"", rfl⟩
  | cons p rest ih =>
    obtain ⟨s, hs⟩ := ih
    cases p with
    | lit t =>
      refine ⟨t ++ s, ?_⟩
      simp [Talm.renderParts, Talm.renderPart, hs]
    | guardedLookup k n i body =>
      refine ⟨"" ++ s, ?_⟩
      simp [Talm.renderParts, Talm.renderPart, Talm.nullLookup, hs]

/-! #### C7 -/

/-- Helper: the hex-digit characters Go writes in `\u00XX` escapes are
never a newline. -/
theorem hexDigitChar_ne_newline (n : Nat) : Talm.hexDigitChar n ≠ '\n' := by
  rcases n with _|_|_|_|_|_|_|_|_|_|_|_|_|_|_|_|m <;>
    first
      | decide
      | exact (by decide : ('0' : Char) ≠ '\n')

/-- Helper: no JSON character escape contains a newline: control
characters — the newline itself included — are written as backslash
escapes. -/
theorem newline_not_mem_jsonEscapeChar (c : Char) : '\n' ∉ (Talm.jsonEscapeChar c).data := by
  rw [Talm.jsonEscapeChar]
  split_ifs with h1 h2 h3 h4 h5 h6 h7 h8 h9
  · decide
  · decide
  · decide
  · decide
  · decide
  · decide
  · decide
  · decide
  · intro hmem
    rw [String.data_append, String.data_append] at hmem
    rw [List.mem_append, List.mem_append] at hmem
    rcases hmem with (h | h) | h
    · revert h
      decide
    · rw [show (String.singleton (Talm.hexDigitChar (c.toNat / 16))).data =
          [Talm.hexDigitChar (c.toNat / 16)] from rfl, List.mem_singleton] at h
      exact hexDigitChar_ne_newline _ h.symm
    · rw [show (String.singleton (Talm.hexDigitChar (c.toNat % 16))).data =
          [Talm.hexDigitChar (c.toNat % 16)] from rfl, List.mem_singleton] at h
      exact hexDigitChar_ne_newline _ h.symm
  · intro hmem
    rw [show (String.singleton c).data = [c] from rfl, List.mem_singleton] at hmem
    rw [← hmem] at h9
    exact h9 (by decide)

/-- Helper: concatenation preserves newline-freeness. -/
theorem newline_not_mem_concatStrings :
    ∀ l : List String, (∀ s ∈ l, '\n' ∉ s.data) →
      '\n' ∉ (Talm.concatStrings l).data := by
  intro l
  induction l with
  | nil =>
    intro _ hmem
    revert hmem
    decide
  | cons s rest ih =>
    intro h
    simp only [Talm.concatStrings, String.data_append]
    intro hmem
    rw [List.mem_append] at hmem
    rcases hmem with h1 | h1
    · exact h s (List.mem_cons_self s rest) h1
    · exact ih (fun t ht => h t (List.mem_cons_of_mem s ht)) h1

/-- Helper: comma-joining preserves newline-freeness. -/
theorem newline_not_mem_joinComma :
    ∀ l : List String, (∀ s ∈ l, '\n' ∉ s.data) →
      '\n' ∉ (Talm.joinComma l).data := by
  intro l
  induction l with
  | nil =>
    intro _ hmem
    revert hmem
    decide
  | cons s rest ih =>
    intro h
    cases rest with
    | nil => exact fun hmem => h s (List.mem_cons_self s []) hmem
    | cons t rest2 =>
      simp only [Talm.joinComma, String.data_append]
      intro hmem
      rw [List.mem_append, List.mem_append] at hmem
      rcases hmem with (h1 | h1) | h1
      · exact h s (List.mem_cons_self s (t :: rest2)) h1
      · revert h1
        decide
      · exact ih (fun u hu => h u (List.mem_cons_of_mem s hu)) h1

/-- Helper: a JSON-encoded string contains no newline, whatever the
input. -/
theorem newline_not_mem_jsonEncodeString (s : String) :
    '\n' ∉ (Talm.jsonEncodeString s).data := by
  rw [Talm.jsonEncodeString]
  simp only [String.data_append]
  intro hmem
  rw [List.mem_append, List.mem_append] at hmem
  rcases hmem with (h1 | h1) | h1
  · revert h1
    decide
  · refine newline_not_mem_concatStrings _ (fun t ht => ?_) h1
    rw [List.mem_map] at ht
    obtain ⟨c, _, rfl⟩ := ht
    exact newline_not_mem_jsonEscapeChar c
  · revert h1
    decide

/-- Helper: a JSON-encoded string list contains no newline, whatever the
input. -/
theorem newline_not_mem_jsonEncodeStringList (l : List String) :
    '\n' ∉ (Talm.jsonEncodeStringList l).data := by
  rw [Talm.jsonEncodeStringList]
  simp only [String.data_append]
  intro hmem
  rw [List.mem_append, List.mem_append] at hmem
  rcases hmem with (h1 | h1) | h1
  · revert h1
    decide
  · refine newline_not_mem_joinComma _ (fun t ht => ?_) h1
    rw [List.mem_map] at ht
    obtain ⟨s, _, rfl⟩ := ht
    exact newline_not_mem_jsonEncodeString s
  · revert h1
    decide

/-- Helper: the head of an appended list is the head of a non-empty left
part. -/
theorem head?_append_left {α : Type} (l₁ l₂ : List α) (a : α) (h : l₁.head? = some a) :
    (l₁ ++ l₂).head? = some a := by
  cases l₁ with
  | nil => exact absurd h (by simp)
  | cons x xs =>
    rw [List.head?_cons] at h
    rw [List.cons_append, List.head?_cons, h]

/-- C7: for any three string lists the modeline emitter yields exactly one
comment line — its first character is '#' and it contains no newline
(every control character is escaped by the JSON encoder), so it cannot
split into several lines — with the three inputs embedded as JSON
fragments; it is total (Go's `json.Marshal` cannot fail on string
slices).  The final output of a successful render is that modeline, a
newline, then the rendered documents, hence it begins with the modeline. -/
theorem generateModeline_single_comment :
    (∀ ns es ts : List String,
      (Talm.generateModeline ns es ts).data.head? = some '#' ∧
      '\n' ∉ (Talm.generateModeline ns es ts).data ∧
      Talm.generateModeline ns es ts =
        "# talm: nodes=" ++ Talm.jsonEncodeStringList ns ++ ", endpoints=" ++
          Talm.jsonEncodeStringList es ++ ", templates=" ++ Talm.jsonEncodeStringList ts) ∧
    (∀ m r : String, Talm.finalOutput m r = m ++ ("\n" ++ r)) := by
  refine ⟨fun ns es ts => ⟨?_, ?_, rfl⟩, fun m r => ?_⟩
  · rw [Talm.generateModeline]
    simp only [String.data_append]
    apply head?_append_left
    apply head?_append_left
    apply head?_append_left
    apply head?_append_left
    apply head?_append_left
    decide
  · rw [Talm.generateModeline]
    simp only [String.data_append]
    intro hmem
    simp only [List.mem_append] at hmem
    rcases hmem with ((((h | h) | h) | h) | h) | h
    · revert h
      decide
    · exact newline_not_mem_jsonEncodeStringList ns h
    · revert h
      decide
    · exact newline_not_mem_jsonEncodeStringList es h
    · revert h
      decide
    · exact newline_not_mem_jsonEncodeStringList ts h
  · rw [Talm.finalOutput, String.append_assoc]

/-! #### C8 -/

/-- C8: without `--force`, a write to an existing destination returns the
"already exists" error before writing — the filesystem, and in particular
the existing file's content, is unchanged; with `--force` the validation
is skipped and the destination is overwritten with the new data. -/
theorem writeToDestination_force (fs : Talm.FS) (data dest old : String) :
    (fs dest = some old →
      Talm.writeToDestination false fs data dest =
        (Except.error (Talm.alreadyExistsError dest), fs)) ∧
    Talm.writeToDestination true fs data dest =
      (Except.ok (), fun p => if p = dest then some data else fs p) := by
  constructor
  · intro hex
    rw [Talm.writeToDestination, Talm.validateFileExists, hex]
    rfl
  · rw [Talm.writeToDestination, Talm.validateFileExists]
    rfl

/-- C8 witness: a filesystem with one existing file; the forceless write
to it fails with the "already exists" error and leaves it intact. -/
theorem writeToDestination_force_witness :
    Talm.writeToDestination false
        (fun p => if p = "talosconfig" then some "old" else none) "new" "talosconfig" =
      (Except.error (Talm.alreadyExistsError "talosconfig"),
        fun p => if p = "talosconfig" then some "old" else none) :=
  (writeToDestination_force
      (fun p => if p = "talosconfig" then some "old" else none) "new" "talosconfig" "old").1
    (by decide)

/-! #### C10 -/

/-- Helper: `writeToDestination` can only fail with the "already exists"
validation error, and a failed write leaves the filesystem unchanged. -/
theorem writeToDestination_error_inv (force : Bool) (fs : Talm.FS) (data dest e : String)
    (fs1 : Talm.FS) (h : Talm.writeToDestination force fs data dest = (.error e, fs1)) :
    e = Talm.alreadyExistsError dest ∧ fs1 = fs := by
  cases force with
  | true =>
    rw [Talm.writeToDestination, Talm.validateFileExists] at h
    simp at h
  | false =>
    rw [Talm.writeToDestination, Talm.validateFileExists] at h
    cases hfs : (fs dest).isSome with
    | true =>
      rw [hfs] at h
      simp at h
      exact ⟨h.1.symm, h.2.symm⟩
    | false =>
      rw [hfs] at h
      simp at h

/-- C10: in the preset-writing loop of init, a failing Chart.yaml write
never aborts — its error value is discarded, so a file list whose only
preset-matching failures are Chart.yaml entries always ends in success —
while an error on any other preset file aborts the loop; conversely every
abort originates from a non-Chart.yaml preset file's "already exists"
failure. -/
theorem init_chart_error_discarded :
    (∀ (force : Bool) (pres root cn ver : String) (files : List (String × String))
        (fs : Talm.FS),
      (∀ pc ∈ files, Talm.chartNameOf pc.1 = pres → Talm.isChartFile pc.1 = true) →
      ∃ fs1, Talm.initWritePresets force pres root cn ver files fs = .ok fs1) ∧
    (∀ (force : Bool) (pres root cn ver : String) (files : List (String × String))
        (fs : Talm.FS) (e : String),
      Talm.initWritePresets force pres root cn ver files fs = .error e →
      ∃ pc ∈ files, Talm.chartNameOf pc.1 = pres ∧ Talm.isChartFile pc.1 = false ∧
        e = Talm.alreadyExistsError (Talm.destPath root pc.1)) := by
  constructor
  · intro force pres root cn ver files
    induction files with
    | nil => exact fun fs _ => ⟨fs, rfl⟩
    | cons pc rest ih =>
      intro fs h
      obtain ⟨path, content⟩ := pc
      by_cases hname : Talm.chartNameOf path = pres
      · have hchart : Talm.isChartFile path = true :=
          h (path, content) (List.mem_cons_self _ _) hname
        simp only [Talm.initWritePresets, if_pos hname, hchart, if_true]
        exact ih _ (fun pc hpc => h pc (List.mem_cons_of_mem _ hpc))
      · simp only [Talm.initWritePresets, if_neg hname]
        exact ih fs (fun pc hpc => h pc (List.mem_cons_of_mem _ hpc))
  · intro force pres root cn ver files
    induction files with
    | nil =>
      intro fs e h
      rw [Talm.initWritePresets] at h
      exact absurd h (by simp)
    | cons pc rest ih =>
      intro fs e h
      obtain ⟨path, content⟩ := pc
      by_cases hname : Talm.chartNameOf path = pres
      · by_cases hchart : Talm.isChartFile path
        · simp only [Talm.initWritePresets, if_pos hname, hchart, if_true] at h
          obtain ⟨pc, hpc, h1, h2, h3⟩ := ih _ _ h
          exact ⟨pc, List.mem_cons_of_mem _ hpc, h1, h2, h3⟩
        · have hcf : Talm.isChartFile path = false := by
            rw [Bool.not_eq_true] at hchart
            exact hchart
          simp only [Talm.initWritePresets, if_pos hname, if_neg hchart] at h
          cases hw : Talm.writeToDestination force fs content (Talm.destPath root path) with
          | mk res fs1 =>
            cases res with
            | error e1 =>
              rw [hw] at h
              simp only [Except.error.injEq] at h
              obtain ⟨he, _⟩ :=
                writeToDestination_error_inv force fs content (Talm.destPath root path) e1 fs1 hw
              exact ⟨(path, content), List.mem_cons_self _ _, hname, hcf, h ▸ he⟩
            | ok u =>
              rw [hw] at h
              obtain ⟨pc, hpc, h1, h2, h3⟩ := ih _ _ h
              exact ⟨pc, List.mem_cons_of_mem _ hpc, h1, h2, h3⟩
      · simp only [Talm.initWritePresets, if_neg hname] at h
        obtain ⟨pc, hpc, h1, h2, h3⟩ := ih _ _ h
        exact ⟨pc, List.mem_cons_of_mem _ hpc, h1, h2, h3⟩

/-- C10 witness: a preset whose Chart.yaml destination already exists:
the forceless init loop still succeeds, the write failure being
discarded. -/
theorem init_chart_error_discarded_witness :
    ∃ fs1, Talm.initWritePresets false "generic" "proj" "mycluster" "1.0"
        [("generic/Chart.yaml", "name: %s\nversion: %s\n")]
        (fun p => if p = "proj/Chart.yaml" then some "old chart" else none) = .ok fs1 :=
  init_chart_error_discarded.1 false "generic" "proj" "mycluster" "1.0"
    [("generic/Chart.yaml", "name: %s\nversion: %s\n")]
    (fun p => if p = "proj/Chart.yaml" then some "old chart" else none)
    (by decide)

/-! #### C9 -/

/-- C9: `PreRunE` produces, for every list option, the
project-configuration entries followed by the command-line entries in
that order; under the spec-modelled later-entry-overrides merge, a
command-line entry at a key therefore always beats a
project-configuration entry at the same key; and every scalar option
takes the project-configuration value exactly when its flag was not
explicitly set, the command-line value otherwise. -/
theorem preRunE_layering :
    (∀ (cfg flags : Talm.TemplateOptions) (changed : Talm.ChangedFlags),
      (Talm.preRunE cfg flags changed).valueFiles = cfg.valueFiles ++ flags.valueFiles ∧
      (Talm.preRunE cfg flags changed).values = cfg.values ++ flags.values ∧
      (Talm.preRunE cfg flags changed).stringValues = cfg.stringValues ++ flags.stringValues ∧
      (Talm.preRunE cfg flags changed).fileValues = cfg.fileValues ++ flags.fileValues ∧
      (Talm.preRunE cfg flags changed).jsonValues = cfg.jsonValues ++ flags.jsonValues ∧
      (Talm.preRunE cfg flags changed).literalValues =
        cfg.literalValues ++ flags.literalValues) ∧
    (∀ (cfgEntries cliEntries : List (String × String)) (k v : String),
      Talm.resolveKey cliEntries k = some v →
      Talm.resolveKey (cfgEntries ++ cliEntries) k = some v) ∧
    (∀ (cfg flags : Talm.TemplateOptions) (changed : Talm.ChangedFlags),
      (changed.talosVersion = false →
        (Talm.preRunE cfg flags changed).talosVersion = cfg.talosVersion) ∧
      (changed.talosVersion = true →
        (Talm.preRunE cfg flags changed).talosVersion = flags.talosVersion) ∧
      (changed.withSecrets = false →
        (Talm.preRunE cfg flags changed).withSecrets = cfg.withSecrets) ∧
      (changed.withSecrets = true →
        (Talm.preRunE cfg flags changed).withSecrets = flags.withSecrets) ∧
      (changed.kubernetesVersion = false →
        (Talm.preRunE cfg flags changed).kubernetesVersion = cfg.kubernetesVersion) ∧
      (changed.kubernetesVersion = true →
        (Talm.preRunE cfg flags changed).kubernetesVersion = flags.kubernetesVersion) ∧
      (changed.full = false → (Talm.preRunE cfg flags changed).full = cfg.full) ∧
      (changed.full = true → (Talm.preRunE cfg flags changed).full = flags.full) ∧
      (changed.offline = false → (Talm.preRunE cfg flags changed).offline = cfg.offline) ∧
      (changed.offline = true →
        (Talm.preRunE cfg flags changed).offline = flags.offline)) := by
  refine ⟨fun cfg flags changed => ⟨rfl, rfl, rfl, rfl, rfl, rfl⟩,
    fun cfgEntries cliEntries k v h => ?_, fun cfg flags changed => ?_⟩
  · rw [Talm.resolveKey, List.foldl_append]
    rw [Talm.resolveKey,
      foldl_update_eq_find_rev (fun e => e.1 == k) (fun e => some e.2) cliEntries none] at h
    rw [foldl_update_eq_find_rev (fun e => e.1 == k) (fun e => some e.2) cliEntries]
    cases hf : cliEntries.reverse.find? (fun e => e.1 == k) with
    | none =>
      rw [hf] at h
      exact absurd h (by simp)
    | some entry =>
      rw [hf] at h
      exact h
  · refine ⟨fun h => ?_, fun h => ?_, fun h => ?_, fun h => ?_, fun h => ?_, fun h => ?_,
      fun h => ?_, fun h => ?_, fun h => ?_, fun h => ?_⟩ <;>
    simp [Talm.preRunE, h]

/-- C9 witness: a command-line entry at key "k" beats the
project-configuration entry at the same key, and an unchanged scalar flag
takes the project-configuration value. -/
theorem preRunE_layering_witness :
    Talm.resolveKey ([("k", "fromConfig")] ++ [("k", "fromCli")]) "k" = some "fromCli" ∧
    (Talm.preRunE
        ⟨["cfg.yaml"], [], [], [], [], [], "v1.7", "secrets.yaml", "", false, false⟩
        ⟨[], [], [], [], [], [], "v1.8", "other.yaml", "1.30", true, true⟩
        ⟨false, true, false, true, false⟩).talosVersion = "v1.7" :=
  ⟨preRunE_layering.2.1 [("k", "fromConfig")] [("k", "fromCli")] "k" "fromCli" (by decide),
   (preRunE_layering.2.2
      ⟨["cfg.yaml"], [], [], [], [], [], "v1.7", "secrets.yaml", "", false, false⟩
      ⟨[], [], [], [], [], [], "v1.8", "other.yaml", "1.30", true, true⟩
      ⟨false, true, false, true, false⟩).1 rfl⟩
